import Mathlib

/-!
Formal model of the session-wrapper decision pipeline of the
personal-ai-os repository.

The embedding covers:
* `.agent/skills/session_wrapper/scripts/publish_detector.py` — the
  publish-decision classifier (`analyze_session` and its helper
  functions), modelled twice:
  - a typed model over `SessionContext` records, used for the
    functional-correctness claims; and
  - a dynamic model over `PyVal` (a model of Python runtime values),
    which reproduces Python's dynamic attribute/type errors and is used
    for the totality/never-throws claim.
* `.agent/skills/session_wrapper/scripts/synthesizer.py` — the content
  synthesizer (`extract_accomplishments`, `synthesize_enhanced`), with
  `datetime.now()` abstracted as an explicit `today : String` argument.

Machine strings are Lean `String`s; Python floats that are only ever
stored and compared (the confidence values and the 0.3 side-quest
threshold) are modelled as exact rationals; all listed literals are
used only as constants, never in float arithmetic, except for the
single comparison `len(unrelated)/len(files) > 0.3`, which is exact in
the rational model for every realizable file count.
-/

/-! ### Python-flavoured string primitives -/

/-- The ASCII whitespace characters stripped by Python `str.strip()`
and matched by the regex class `\s` (space, tab, newline, carriage
return, vertical tab, form feed). -/
def pySpace (c : Char) : Bool :=
  c = ' ' || c = '\t' || c = '\n' || c = '\r' || c = '\x0b' || c = '\x0c'

/-- Strip `pySpace` characters from both ends of a character list. -/
def pyStripChars (l : List Char) : List Char :=
  ((l.dropWhile pySpace).reverse.dropWhile pySpace).reverse

/-- Python `str.strip()` (ASCII whitespace). -/
def pyStrip (s : String) : String :=
  String.mk (pyStripChars s.data)

/-- Python substring containment `needle in hay`. -/
def strContains (hay needle : String) : Bool :=
  (List.range (hay.data.length + 1)).any (fun i => needle.data.isPrefixOf (hay.data.drop i))

/-- Python `s.split(" ", 1)` when it produces two parts: split at the
first space, returning the parts before and after it; `none` when the
string has no space (Python then returns a one-element list). -/
def splitFirstSpace (s : String) : Option (String × String) :=
  match s.data.findIdx? (fun c => c = ' ') with
  | none => none
  | some i => some (String.mk (s.data.take i), String.mk (s.data.drop (i + 1)))

/-- Python `str.lower()` (character-wise, as in the source's ASCII
paths). -/
def toLowerStr (s : String) : String :=
  String.mk (s.data.map Char.toLower)

/-- Python `s.endswith(suffix)`. -/
def strEndsWith (s suffix : String) : Bool :=
  suffix.data.isSuffixOf s.data

/-- Python `s.startswith(prefix)`. -/
def strStartsWith (s pre : String) : Bool :=
  pre.data.isPrefixOf s.data

/-- Python `s[n:]` (drop the first `n` characters). -/
def strDrop (s : String) (n : Nat) : String :=
  String.mk (s.data.drop n)

/-- Split a character list at every character satisfying `p`, keeping
empty pieces — the semantics of Python `str.split(c)` with a one-character
separator and of `re.split` over a character class when applied
character-wise. -/
def splitCharList (p : Char → Bool) : List Char → List (List Char)
  | [] => [[]]
  | x :: xs =>
    if p x then [] :: splitCharList p xs
    else
      match splitCharList p xs with
      | [] => [[x]]
      | h :: t => (x :: h) :: t

/-- String view of `splitCharList`. -/
def pySplit (p : Char → Bool) (s : String) : List String :=
  (splitCharList p s.data).map String.mk

/-- Python `sep.join(parts)`. -/
def strIntercalate (sep : String) : List String → String
  | [] => ""
  | [a] => a
  | a :: rest => a ++ sep ++ strIntercalate sep rest

/-! ### publish_detector.py — data model -/

/-- The `ContentType` enum of publish_detector.py. -/
inductive ContentType where
  | skill
  | homework
  | side_quest
  | learning_log
  | workflow
  | manual
deriving DecidableEq

/-- The `TargetRepo` enum of publish_detector.py. -/
inductive TargetRepo where
  | personal_ai_os
  | de_zoomcamp
  | learning_logs
deriving DecidableEq

/-- The string value of each `TargetRepo` enum member. -/
def TargetRepo.value : TargetRepo → String
  | .personal_ai_os => "personal-ai-os"
  | .de_zoomcamp => "de-zoomcamp-2026"
  | .learning_logs => "learning-logs"

/-- The list `[r.value for r in TargetRepo]`. -/
def recognizedRepos : List String :=
  ["personal-ai-os", "de-zoomcamp-2026", "learning-logs"]

/-- The enum constructor `TargetRepo(s)`, meaningful when
`s ∈ recognizedRepos` (the source only applies it under that guard). -/
def TargetRepo.ofValue (s : String) : TargetRepo :=
  if s = "personal-ai-os" then .personal_ai_os
  else if s = "de-zoomcamp-2026" then .de_zoomcamp
  else .learning_logs

/-- The `PublishDecision` dataclass of publish_detector.py; the float
confidence is modelled as an exact rational. -/
structure PublishDecision where
  should_publish : Bool
  content_type : Option ContentType
  target_repo : Option TargetRepo
  reason : String
  confidence : ℚ
deriving DecidableEq

/-- The keyword list `HOMEWORK_INDICATORS`. -/
def HOMEWORK_INDICATORS : List String :=
  ["homework", "exercise", "solution", "answer", "submission"]

/-- The keyword list `DE_ZOOMCAMP_INDICATORS`. -/
def DE_ZOOMCAMP_INDICATORS : List String :=
  ["zoomcamp", "module-", "bigquery", "spark", "dbt", "terraform", "docker", "airflow"]

/-- The meta-file names excluded by `detect_side_quest`. -/
def META_NAMES : List String :=
  [".gitignore", "readme", "license", ".env"]

/-! ### publish_detector.py — context extraction -/

/-- One line of `git diff --stat` output, matched against the anchored
pattern `^\s*(.+?)\s*\|` and the captured group stripped.  By the
pattern's backtracking semantics, with `w` the length of the line's
maximal whitespace prefix: the greedy leading `\s*` first takes all of
it, the lazy group then consumes at least one character, so the engine
matches the first bar at an index of at least `w + 1` and the stripped
capture equals the stripped prefix before that bar; when no such bar
exists but the character at index `w` itself is a bar with `w ≥ 1`, the
leading run backtracks by one character, the lazy group holds that
single whitespace character, and the stripped capture is empty;
otherwise (bar at index 0 only, or no bar) the line does not match.
This characterization was checked exhaustively against CPython's
`re.match` on all strings of length up to 7 over a bar/space/tab/letter
alphabet and on random longer strings. -/
def lineFile (line : String) : Option String :=
  let l := line.data
  let w := (l.takeWhile pySpace).length
  match (l.drop (w + 1)).findIdx? (fun d => d = '|') with
  | some i => some (String.mk (pyStripChars (l.take (w + 1 + i))))
  | none => if 1 ≤ w ∧ l.getD w ' ' = '|' then some "" else none

/-- The per-line part of `extract_modified_files`: each line either
contributes one (possibly empty) stripped path or is silently dropped. -/
def filesOfLines (lines : List String) : List String :=
  lines.filterMap lineFile

/-- `extract_modified_files` of publish_detector.py. -/
def extract_modified_files (git_diff_stat : String) : List String :=
  filesOfLines (pySplit (fun c => c = '\n') git_diff_stat)

/-- `count_modified_files` of publish_detector.py. -/
def count_modified_files (git_diff_stat : String) : Nat :=
  (extract_modified_files git_diff_stat).length

/-- The separator class of `re.split(r'[\s\-_:,]+', title)`. -/
def sepChar (c : Char) : Bool :=
  pySpace c || c = '-' || c = '_' || c = ':' || c = ','

/-- The per-title keyword computation of `extract_ticket_keywords`:
lower-case, split on separators, keep tokens longer than 3 characters.
The final `list(set(keywords))` of the source deduplicates with an
iteration order Python leaves unspecified; the model deduplicates
keeping first occurrences.  The classifier only ever tests membership
in this list (see the order-independence theorem below), so the choice
of representative order is immaterial. -/
def keywordsOfTitles (titles : List String) : List String :=
  (titles.flatMap (fun title => ((pySplit sepChar (toLowerStr title)).filter (fun w => w.length > 3)))).eraseDups

/-- A Linear ticket record as consumed by the detector: only the title
is read (`ticket.get("title", "")`). -/
structure Ticket where
  title : String
deriving DecidableEq

/-- `extract_ticket_keywords` of publish_detector.py. -/
def extract_ticket_keywords (tickets : List Ticket) : List String :=
  keywordsOfTitles (tickets.map Ticket.title)

/-! ### publish_detector.py — rule predicates -/

/-- The membership test applied to each file by `detect_side_quest`:
no ticket keyword occurs in the lower-cased path and no meta-file name
occurs in it. -/
def isUnrelated (ticket_keywords : List String) (file : String) : Bool :=
  !(ticket_keywords.any (fun kw => strContains (toLowerStr file) kw)) &&
  !(META_NAMES.any (fun m => strContains (toLowerStr file) m))

/-- `detect_side_quest` of publish_detector.py. -/
def detect_side_quest (modified_files : List String) (ticket_keywords : List String) :
    Bool × String :=
  if ticket_keywords.isEmpty then (false, "No tickets to compare against")
  else
    let unrelated_files := modified_files.filter (isUnrelated ticket_keywords)
    if 0 < unrelated_files.length ∧
        (3 : ℚ) / 10 < (unrelated_files.length : ℚ) / (modified_files.length : ℚ) then
      (true, "Files unrelated to ticket: " ++ strIntercalate ", " (unrelated_files.take 3))
    else (false, "Work aligned with ticket scope")

/-- The skill-file test of `detect_skill_creation`: "skill" occurs in
the lower-cased path and the path ends (case-sensitively) in ".md". -/
def isSkillFile (f : String) : Bool :=
  strContains (toLowerStr f) ("skill") && strEndsWith f (".md")

/-- The script-file test of `detect_skill_creation`: "/scripts/" occurs
in the lower-cased path and the path ends in ".py". -/
def isScriptFile (f : String) : Bool :=
  strContains (toLowerStr f) ("/scripts/") && strEndsWith f (".py")

/-- Stated from the skill-rule description's wording, not from the
source, for comparison with `isSkillFile`: the path matches
"*skill*.md" entirely case-insensitively, so an upper-case ".MD"
suffix also qualifies (the source instead checks `f.endswith(".md")`
case-sensitively). -/
def isSkillFileBroad (f : String) : Bool :=
  strContains (toLowerStr f) ("skill") && strEndsWith (toLowerStr f) (".md")

/-- Stated from the skill-rule description's wording, not from the
source, for comparison with `isScriptFile`: the path lies under a
"scripts/" directory — also a top-level one — and ends in ".py" (the
source instead requires the substring "/scripts/" with a leading
slash). -/
def isScriptFileBroad (f : String) : Bool :=
  (strStartsWith (toLowerStr f) ("scripts/") || strContains (toLowerStr f) ("/scripts/")) &&
  strEndsWith (toLowerStr f) (".py")

/-- `detect_skill_creation` of publish_detector.py. -/
def detect_skill_creation (modified_files : List String) : Bool × String :=
  let skill_files := modified_files.filter isSkillFile
  let script_files := modified_files.filter isScriptFile
  if !skill_files.isEmpty && !script_files.isEmpty then
    (true, "New skill detected: " ++ skill_files.headD "")
  else (false, "")

/-- `detect_homework` of publish_detector.py: the file loop returns on
the first matching file, and the commit text is only consulted when no
file matches. -/
def detect_homework (modified_files : List String) (commit_messages : String) :
    Bool × String :=
  match modified_files.find? (fun f => HOMEWORK_INDICATORS.any (fun hw => strContains (toLowerStr f) hw)) with
  | some f => (true, "Homework file modified: " ++ f)
  | none =>
    if HOMEWORK_INDICATORS.any (fun hw => strContains (toLowerStr commit_messages) hw) then
      (true, "Homework mentioned in commit")
    else (false, "")

/-- `detect_de_zoomcamp_content` of publish_detector.py. -/
def detect_de_zoomcamp_content (modified_files : List String) (commit_messages : String) : Bool :=
  let all_text := toLowerStr (strIntercalate " " modified_files) ++ " " ++ toLowerStr commit_messages
  DE_ZOOMCAMP_INDICATORS.any (fun ind => strContains all_text ind)

/-! ### publish_detector.py — analyze_session (typed model) -/

/-- The git portion of the context dict, with absent keys replaced by
the defaults the source supplies to `.get`.  Key `"error"` present is
modelled as `error = some e` (the source only ever stores a message
string there); `modified_files` is the list read by the synthesizer. -/
structure GitData where
  error : Option String
  diff_stat : String
  recent_commits : String
  modified_files : List String
deriving DecidableEq

/-- The linear portion of the context dict. -/
structure LinearData where
  tickets : List Ticket
deriving DecidableEq

/-- The session-context dict consumed by `analyze_session`, in its
expected shape: `target_repo = none` models an absent key or `None`,
and `some ""` models an empty-string override. -/
structure SessionContext where
  git : GitData
  linear : LinearData
  force_publish : Bool
  target_repo : Option String
deriving DecidableEq

/-- Python truthiness of the optional `target_repo` string. -/
def optStrTruthy : Option String → Bool
  | none => false
  | some s => !s.data.isEmpty

/-- The target-repo computation of the forced-override rule:
`TargetRepo(force_target) if force_target in [r.value for r in TargetRepo]
else TargetRepo.LEARNING_LOGS`. -/
def repoFromForced (force_target : String) : TargetRepo :=
  if force_target ∈ recognizedRepos then TargetRepo.ofValue force_target
  else TargetRepo.learning_logs

/-- `analyze_session` of publish_detector.py, with the ticket-keyword
list supplied explicitly (the wrapper below instantiates it with
`extract_ticket_keywords`; the factoring lets the development state
that the decision is independent of the keyword list's order). -/
def analyze_session_kw (ctx : SessionContext) (ticket_keywords : List String) :
    PublishDecision :=
  match ctx.git.error with
  | some e => ⟨false, none, none, "Git error: " ++ e, 1⟩
  | none =>
    let modified_files := extract_modified_files ctx.git.diff_stat
    let commit_log := ctx.git.recent_commits
    let file_count := modified_files.length
    if ctx.force_publish && optStrTruthy ctx.target_repo then
      ⟨true, some ContentType.manual, some (repoFromForced ((ctx.target_repo).getD "")),
        "Manually flagged for publish", 1⟩
    else
      let skill := detect_skill_creation modified_files
      if skill.1 then
        ⟨true, some ContentType.skill, some TargetRepo.personal_ai_os, skill.2, 9/10⟩
      else
        let hw := detect_homework modified_files commit_log
        if hw.1 then
          ⟨true, some ContentType.homework, some TargetRepo.de_zoomcamp, hw.2, 85/100⟩
        else
          let sq := detect_side_quest modified_files ticket_keywords
          if sq.1 then
            ⟨true, some ContentType.side_quest, some TargetRepo.learning_logs, sq.2, 7/10⟩
          else
            if 3 ≤ file_count then
              ⟨true, some ContentType.learning_log,
                some (if detect_de_zoomcamp_content modified_files commit_log then
                        TargetRepo.de_zoomcamp else TargetRepo.learning_logs),
                "Significant session: " ++ toString file_count ++ " files modified", 6/10⟩
            else
              ⟨false, none, none,
                "Session not significant enough (" ++ toString file_count ++ " files modified)",
                8/10⟩

/-- `analyze_session` of publish_detector.py (typed model). -/
def analyze_session (ctx : SessionContext) : PublishDecision :=
  analyze_session_kw ctx (extract_ticket_keywords ctx.linear.tickets)

/-- The modified-file list `analyze_session` derives from the context. -/
def modifiedFilesOf (ctx : SessionContext) : List String :=
  extract_modified_files ctx.git.diff_stat

/-- The ticket-keyword list `analyze_session` derives from the context. -/
def keywordsOf (ctx : SessionContext) : List String :=
  extract_ticket_keywords ctx.linear.tickets

/-- The unrelated-file list of the side-quest rule, as derived from the
context. -/
def unrelatedOf (ctx : SessionContext) : List String :=
  (modifiedFilesOf ctx).filter (isUnrelated (keywordsOf ctx))

/-! ### synthesizer.py — data model and accomplishment extraction -/

/-- The `EnhancedContent` dataclass of synthesizer.py. -/
structure EnhancedContent where
  core_work_log : String
  side_quest_log : String
  narrative : String
  twitter_draft : String
  linkedin_draft : String
  devto_draft : String
  key_accomplishments : List String
deriving DecidableEq

/-- The commit-line part of `extract_accomplishments`: a line of the
stripped commit log contributes an accomplishment when it is nonempty
after stripping and splits at a space into a hash part and a message;
conventional prefixes are rewritten into verb phrases and other
messages pass through verbatim. -/
def cleanCommitLine (line : String) : Option String :=
  if (pyStrip line).data.isEmpty then none
  else
    match splitFirstSpace line with
    | none => none
    | some parts =>
      let msg := parts.2
      if strStartsWith msg ("feat:") then some ("Built " ++ pyStrip (strDrop msg 5))
      else if strStartsWith msg ("fix:") then some ("Fixed " ++ pyStrip (strDrop msg 4))
      else if strStartsWith msg ("chore:") then some ("Updated " ++ pyStrip (strDrop msg 6))
      else some msg

/-- The modified-file part of `extract_accomplishments`: the first
matching pattern of the if/elif chain contributes an accomplishment.
For a "SKILL.md" path containing a slash, the skill name is the
second-to-last slash-separated component (Python `f.split("/")[-2]`). -/
def fileAccomplishment (f : String) : Option String :=
  if strContains f ("SKILL.md") then
    some ("Created " ++
      (if strContains f ("/") then
        (pySplit (fun c => c = '/') f).getD ((pySplit (fun c => c = '/') f).length - 2) ""
      else "new skill") ++ " skill")
  else if strContains (toLowerStr f) ("workflow") then some ("Added automation workflow")
  else if strContains (toLowerStr f) ("test") then some ("Added tests")
  else none

/-- The accomplishment list of `extract_accomplishments` before
deduplication: the first five lines of the stripped commit log, then
the file-pattern contributions, in source order. -/
def raw_accomplishments (git_data : GitData) : List String :=
  ((pySplit (fun c => c = '\n') (pyStrip git_data.recent_commits)).take 5).filterMap cleanCommitLine
    ++ git_data.modified_files.filterMap fileAccomplishment

/-- The dedup loop of `extract_accomplishments`: keep an entry when its
lower-casing has not been seen, recording lower-casings in `seen`. -/
def dedup_ci (seen : List String) : List String → List String
  | [] => []
  | a :: rest =>
    if toLowerStr a ∈ seen then dedup_ci seen rest
    else a :: dedup_ci (toLowerStr a :: seen) rest

/-- `extract_accomplishments` of synthesizer.py (the `linear_tickets`
parameter is unused in the source body and kept for signature
fidelity). -/
def extract_accomplishments (git_data : GitData) (linear_tickets : List Ticket) :
    List String :=
  (dedup_ci [] (raw_accomplishments git_data)).take 5

/-! ### synthesizer.py — template rendering -/

/-- The numbered thread items of `generate_twitter_enhanced`
(`enumerate(accomplishments[1:4], 2)`). -/
def numberedItems : Nat → List String → String
  | _, [] => ""
  | i, a :: rest => toString i ++ "/ ✅ " ++ a ++ "\n\n" ++ numberedItems (i + 1) rest

/-- `generate_twitter_enhanced` of synthesizer.py, with the
`datetime.now().strftime("%Y-%m-%d")` date passed in as `today`. -/
def generate_twitter_enhanced (today : String) (ctx : SessionContext)
    (accomplishments : List String) : String :=
  let file_count := ctx.git.modified_files.length
  let main_accomplishment := accomplishments.headD "made good progress"
  "🧵 Learning in Public: " ++ today ++ "\n\n1/ Today I " ++ toLowerStr main_accomplishment
    ++ "!\n\nHere's what I learned 👇\n\n"
    ++ numberedItems 2 ((accomplishments.drop 1).take 3)
    ++ toString (accomplishments.length + 1) ++ "/ Stats:\n📁 " ++ toString file_count
    ++ " files modified\n🔄 Pushed to GitHub\n📔 Documented everything\n\n"
    ++ toString (accomplishments.length + 2)
    ++ "/ Building in public means every mistake becomes a lesson for others.\n\nCheck my progress: github.com/oronculzac\n\n#LearningInPublic #DataEngineering #100DaysOfCode #BuildInPublic"

/-- `generate_linkedin_enhanced` of synthesizer.py. -/
def generate_linkedin_enhanced (ctx : SessionContext) (accomplishments : List String) :
    String :=
  let file_count := ctx.git.modified_files.length
  let main_accomplishment := accomplishments.headD "Made progress on my learning journey"
  "📚 Learning in Public Update\n\n" ++ main_accomplishment
    ++ "\n\nToday's session highlights:\n"
    ++ String.join ((accomplishments.take 4).map (fun acc => "✅ " ++ acc ++ "\n"))
    ++ "\n📊 Session Stats:\n• " ++ toString file_count
    ++ " files modified\n• Code pushed to GitHub\n• Progress documented in my knowledge base\n\n💡 Key insight: The best way to learn is to build things, break things, and share what you discover.\n\nI'm documenting my Data Engineering journey while building a Personal AI OS that automates this entire workflow.\n\nWhat are you building this week?\n\n#DataEngineering #LearningInPublic #CareerGrowth #TechJourney #BuildInPublic"

/-- `generate_devto_draft` of synthesizer.py. -/
def generate_devto_draft (today : String) (ctx : SessionContext)
    (accomplishments : List String) (narrative : String) : String :=
  let file_count := ctx.git.modified_files.length
  let main_topic := accomplishments.headD "Today's Progress"
  "---\ntitle: \"Learning Log: " ++ main_topic
    ++ "\"\npublished: false\ndescription: Daily learning log - " ++ today
    ++ "\ntags: learninginpublic, dataengineering, devjournal, productivity\nseries: Daily Learning Logs\n---\n\n# "
    ++ main_topic ++ "\n\n*" ++ today ++ " • " ++ toString file_count
    ++ " files modified*\n\n## What I Built Today\n\n"
    ++ String.join (accomplishments.map (fun acc => "- " ++ acc ++ "\n"))
    ++ "\n\n## The Journey\n\n" ++ narrative
    ++ "\n\n## Code Highlights\n\n```python\n# Key changes today\n# - Modified "
    ++ toString file_count
    ++ " files\n# - See commits for details\n```\n\n## Key Takeaways\n\n1. **What worked:** Document as you go - it's easier than reconstructing later\n2. **What I'd do differently:** Start with tests next time\n3. **Next steps:** Continue building and sharing\n\n## Resources\n\n- [My GitHub](https://github.com/oronculzac)\n- [Personal AI OS](https://github.com/oronculzac/personal-ai-os)\n\n---\n\n*This post was auto-generated from my Learning-in-Public workflow. [Learn how it works!](https://github.com/oronculzac/personal-ai-os/tree/main/.agent/skills/session_wrapper)*\n"

/-- `synthesize_enhanced` of synthesizer.py, with the current date
abstracted as `today`. -/
def synthesize_enhanced (today : String) (ctx : SessionContext) : EnhancedContent :=
  let git_data := ctx.git
  let linear_tickets := ctx.linear.tickets
  let accomplishments := extract_accomplishments git_data linear_tickets
  let modified_files := git_data.modified_files
  let commits := pyStrip git_data.recent_commits
  let core_log_lines :=
    ["### Files Modified"]
      ++ (modified_files.take 10).map (fun f => "- `" ++ f ++ "`")
      ++ (if 10 < modified_files.length then
            ["*...and " ++ toString (modified_files.length - 10) ++ " more*"]
          else [])
      ++ ["\n### Commits"]
      ++ ((pySplit (fun c => c = '\n') commits).take 5).filterMap
          (fun commit => if (pyStrip commit).data.isEmpty then none else some ("- " ++ commit))
  let core_work_log := strIntercalate "\n" core_log_lines
  let narrative :=
    "### The Journey\n\n**What I Accomplished:**\n"
      ++ (if accomplishments.isEmpty then "- Made incremental progress"
          else strIntercalate "\n" (accomplishments.map (fun a => "- " ++ a)))
      ++ "\n\n**The Challenge:**\nEvery session has its hurdles. Today's was about maintaining focus and pushing through.\n\n**Key Takeaway:**\nSmall consistent steps compound into significant progress. Keep shipping!\n"
  ⟨core_work_log,
    "*No side quests detected — focused session!*",
    narrative,
    generate_twitter_enhanced today ctx accomplishments,
    generate_linkedin_enhanced ctx accomplishments,
    generate_devto_draft today ctx accomplishments narrative,
    accomplishments⟩

/-! ### Dynamic model of Python values

`analyze_session` receives a `Dict[str, Any]` and probes it with
`.get`, `in`, subscripting and string methods.  The typed model above
captures the expected shapes; the dynamic model below captures what the
interpreter does on every shape, so that exception behaviour on
malformed contexts can be settled.  A `PyVal` is a JSON-like Python
runtime value with string dictionary keys (the shapes that can reach
the classifier from `json.load` or `collect_context`). -/

/-- A model of the Python runtime values the classifier can receive. -/
inductive PyVal where
  | pnone
  | pbool (b : Bool)
  | pint (n : Int)
  | pstr (s : String)
  | plist (xs : List PyVal)
  | pdict (kvs : List (String × PyVal))

/-- The Python exceptions the modelled operations can raise. -/
inductive PyErr where
  | attributeError
  | typeError
  | keyError
deriving DecidableEq

/-- First-match association-list lookup for modelled dictionaries. -/
def dictLookup (kvs : List (String × PyVal)) (k : String) : Option PyVal :=
  (kvs.find? (fun p => p.1 = k)).map (fun p => p.2)

/-- Python `==` between a value and a string literal (used by `in` on
lists): equality holds only between equal strings. -/
def pyEqStr (v : PyVal) (s : String) : Bool :=
  match v with
  | .pstr t => t = s
  | _ => false

/-- The method call `v.get(k, dflt)`: dictionaries look the key up,
every other value has no `get` attribute. -/
def pyGet (v : PyVal) (k : String) (dflt : PyVal) : Except PyErr PyVal :=
  match v with
  | .pdict kvs => .ok ((dictLookup kvs k).getD dflt)
  | _ => .error .attributeError

/-- The expression `k in v` for a string `k`: key containment for
dictionaries, substring containment for strings, element equality for
lists, and a TypeError for non-container values. -/
def pyContainsKey (v : PyVal) (k : String) : Except PyErr Bool :=
  match v with
  | .pdict kvs => .ok (dictLookup kvs k).isSome
  | .pstr s => .ok (strContains s k)
  | .plist xs => .ok (xs.any (fun x => pyEqStr x k))
  | _ => .error .typeError

/-- The expression `v[k]` for a string key: only dictionaries support
string subscripts (a missing key is a KeyError; strings and lists
require integer indices). -/
def pySubscript (v : PyVal) (k : String) : Except PyErr PyVal :=
  match v with
  | .pdict kvs =>
    match dictLookup kvs k with
    | some x => .ok x
    | none => .error .keyError
  | _ => .error .typeError

/-- Python truthiness. -/
def pyTruthy : PyVal → Bool
  | .pnone => false
  | .pbool b => b
  | .pint n => !(n = 0)
  | .pstr s => !s.isEmpty
  | .plist xs => !xs.isEmpty
  | .pdict kvs => !kvs.isEmpty

/-- Python `str(v)` as used in the f-string `"Git error: {...}"`.
Container rendering is abbreviated; no theorem in this development
depends on the container cases. -/
def pyStr : PyVal → String
  | .pnone => "None"
  | .pbool true => "True"
  | .pbool false => "False"
  | .pint n => toString n
  | .pstr s => s
  | .plist _ => "<list>"
  | .pdict _ => "<dict>"

/-- Invoking a `str` method (`.split`, `.lower`, ...) on a value: only
strings have these attributes. -/
def pyAsStrMethod (v : PyVal) : Except PyErr String :=
  match v with
  | .pstr s => .ok s
  | _ => .error .attributeError

/-- `extract_modified_files` applied to the raw `diff_stat` value
(`git_diff_stat.split('\n')` requires a string receiver). -/
def modifiedFilesDyn (diff_stat : PyVal) : Except PyErr (List String) :=
  match pyAsStrMethod diff_stat with
  | .error e => .error e
  | .ok s => .ok (extract_modified_files s)

/-- The title-reading loop of `extract_ticket_keywords`: each ticket is
probed with `.get("title", "")` and the result lower-cased; the loop
raises at the first ill-shaped ticket. -/
def ticketTitles : List PyVal → Except PyErr (List String)
  | [] => .ok []
  | t :: rest =>
    match pyGet t "title" (.pstr "") with
    | .error e => .error e
    | .ok tv =>
      match pyAsStrMethod tv with
      | .error e => .error e
      | .ok title =>
        match ticketTitles rest with
        | .error e => .error e
        | .ok restTitles => .ok (title :: restTitles)

/-- `extract_ticket_keywords` applied to the raw `tickets` value.
Iterating a string yields its one-character strings and iterating a
dictionary yields its string keys, and neither a one-character string
nor a string key has a `.get` attribute, so nonempty strings and
nonempty dictionaries raise AttributeError while empty ones fall
through to an empty keyword list; non-iterables raise TypeError. -/
def ticketKeywordsDyn (tickets : PyVal) : Except PyErr (List String) :=
  match tickets with
  | .plist xs =>
    match ticketTitles xs with
    | .error e => .error e
    | .ok titles => .ok (keywordsOfTitles titles)
  | .pstr s => if s.isEmpty then .ok [] else .error .attributeError
  | .pdict kvs => if kvs.isEmpty then .ok [] else .error .attributeError
  | _ => .error .typeError

/-- `detect_homework` on the raw commit-log value: the file loop can
succeed before the commit text's `.lower()` is ever evaluated, so an
ill-shaped commit log only raises when no file matches. -/
def detectHomeworkDyn (modified_files : List String) (commit_v : PyVal) :
    Except PyErr (Bool × String) :=
  match modified_files.find? (fun f => HOMEWORK_INDICATORS.any (fun hw => strContains (toLowerStr f) hw)) with
  | some f => .ok (true, "Homework file modified: " ++ f)
  | none =>
    match pyAsStrMethod commit_v with
    | .error e => .error e
    | .ok c =>
      .ok (if HOMEWORK_INDICATORS.any (fun hw => strContains (toLowerStr c) hw) then
            (true, "Homework mentioned in commit")
          else (false, ""))

/-- `detect_de_zoomcamp_content` on the raw commit-log value
(`commit_messages.lower()` is evaluated unconditionally there). -/
def detectZoomDyn (modified_files : List String) (commit_v : PyVal) : Except PyErr Bool :=
  match pyAsStrMethod commit_v with
  | .error e => .error e
  | .ok c => .ok (detect_de_zoomcamp_content modified_files c)

/-- The forced-override target repo on the raw `target_repo` value: the
membership test against the recognized values succeeds only for
strings, and the fallback is the learning-logs repo. -/
def forcedRepoDyn : PyVal → TargetRepo
  | .pstr s => if s ∈ recognizedRepos then TargetRepo.ofValue s else TargetRepo.learning_logs
  | _ => TargetRepo.learning_logs

/-- The rule cascade of `analyze_session` after data extraction, on the
raw override and commit-log values. -/
def classifyDyn (force_publish force_target : PyVal) (modified_files ticket_keywords : List String)
    (commit_log : PyVal) : Except PyErr PublishDecision :=
  let file_count := modified_files.length
  if pyTruthy force_publish && pyTruthy force_target then
    .ok ⟨true, some ContentType.manual, some (forcedRepoDyn force_target),
      "Manually flagged for publish", 1⟩
  else
    let skill := detect_skill_creation modified_files
    if skill.1 then
      .ok ⟨true, some ContentType.skill, some TargetRepo.personal_ai_os, skill.2, 9/10⟩
    else
      match detectHomeworkDyn modified_files commit_log with
      | .error e => .error e
      | .ok hw =>
        if hw.1 then
          .ok ⟨true, some ContentType.homework, some TargetRepo.de_zoomcamp, hw.2, 85/100⟩
        else
          let sq := detect_side_quest modified_files ticket_keywords
          if sq.1 then
            .ok ⟨true, some ContentType.side_quest, some TargetRepo.learning_logs, sq.2, 7/10⟩
          else
            if 3 ≤ file_count then
              match detectZoomDyn modified_files commit_log with
              | .error e => .error e
              | .ok is_de =>
                .ok ⟨true, some ContentType.learning_log,
                  some (if is_de then TargetRepo.de_zoomcamp else TargetRepo.learning_logs),
                  "Significant session: " ++ toString file_count ++ " files modified", 6/10⟩
            else
              .ok ⟨false, none, none,
                "Session not significant enough (" ++ toString file_count ++ " files modified)",
                8/10⟩

/-- `analyze_session` of publish_detector.py over raw Python values,
with every fallible interpreter operation made explicit, in the
source's evaluation order. -/
def analyzeSessionDyn (context : PyVal) : Except PyErr PublishDecision :=
  match pyGet context "git" (.pdict []) with
  | .error e => .error e
  | .ok git_data =>
    match pyGet context "linear" (.pdict []) with
    | .error e => .error e
    | .ok linear_data =>
      match pyGet context "force_publish" (.pbool false) with
      | .error e => .error e
      | .ok force_publish =>
        match pyGet context "target_repo" .pnone with
        | .error e => .error e
        | .ok force_target =>
          match pyContainsKey git_data "error" with
          | .error e => .error e
          | .ok hasError =>
            if hasError then
              match pySubscript git_data "error" with
              | .error e => .error e
              | .ok errv => .ok ⟨false, none, none, "Git error: " ++ pyStr errv, 1⟩
            else
              match pyGet git_data "diff_stat" (.pstr "") with
              | .error e => .error e
              | .ok diff_stat =>
                match pyGet git_data "recent_commits" (.pstr "") with
                | .error e => .error e
                | .ok commit_log =>
                  match pyGet linear_data "tickets" (.plist []) with
                  | .error e => .error e
                  | .ok tickets =>
                    match modifiedFilesDyn diff_stat with
                    | .error e => .error e
                    | .ok modified_files =>
                      match ticketKeywordsDyn tickets with
                      | .error e => .error e
                      | .ok ticket_keywords =>
                        classifyDyn force_publish force_target modified_files
                          ticket_keywords commit_log

/-- A well-shaped optional field: absent, or present as a string. -/
def strOrMissing : Option PyVal → Bool
  | none => true
  | some (.pstr _) => true
  | some _ => false

/-- A well-shaped `git` value: a dictionary whose `error`, `diff_stat`
and `recent_commits` keys, when present, hold strings. -/
def wellShapedGit (v : PyVal) : Bool :=
  match v with
  | .pdict kvs =>
    strOrMissing (dictLookup kvs "error") &&
    strOrMissing (dictLookup kvs "diff_stat") &&
    strOrMissing (dictLookup kvs "recent_commits")
  | _ => false

/-- A well-shaped ticket: a dictionary whose `title` key, when present,
holds a string. -/
def wellShapedTicket (v : PyVal) : Bool :=
  match v with
  | .pdict kvs => strOrMissing (dictLookup kvs "title")
  | _ => false

/-- A well-shaped `linear` value: a dictionary whose `tickets` key,
when present, holds a list of well-shaped tickets. -/
def wellShapedLinear (v : PyVal) : Bool :=
  match v with
  | .pdict kvs =>
    match dictLookup kvs "tickets" with
    | none => true
    | some (.plist xs) => xs.all wellShapedTicket
    | some _ => false
  | _ => false

/-- A well-shaped context: a dictionary whose `git` and `linear` keys,
when present, are well shaped.  The `force_publish` and `target_repo`
values may have any shape (the source only takes their truthiness and
compares them against strings). -/
def wellShapedContext (v : PyVal) : Bool :=
  match v with
  | .pdict kvs =>
    (match dictLookup kvs "git" with
      | none => true
      | some g => wellShapedGit g) &&
    (match dictLookup kvs "linear" with
      | none => true
      | some l => wellShapedLinear l)
  | _ => false

/-! ### Concrete contexts used by witnesses and counterexamples -/

/-- A context whose git data carries an error marker while a forced
publish override is also set. -/
def ctxErrForced : SessionContext :=
  ⟨⟨some "not a git repository", "", "", []⟩, ⟨[]⟩, true, some "personal-ai-os"⟩

/-- A context whose git data carries an error marker. -/
def ctxErr : SessionContext :=
  ⟨⟨some "not a git repository", "", "", []⟩, ⟨[]⟩, false, none⟩

/-- A clean context with a forced publish override to a recognized repo. -/
def ctxForced : SessionContext :=
  ⟨⟨none, "", "", []⟩, ⟨[]⟩, true, some "de-zoomcamp-2026"⟩

/-- A clean context whose diff touches a skill file and a scripts file. -/
def ctxSkill : SessionContext :=
  ⟨⟨none, " agents/SKILL.md | 2 ++\n core/scripts/run.py | 5 +++", "", []⟩, ⟨[]⟩, false, none⟩

/-- A clean context whose diff matches the case-insensitive reading of
the skill pattern (upper-case ".MD" suffix) together with a
scripts-directory Python file, but not the source's case-sensitive
`.md` check. -/
def ctxSkillCase : SessionContext :=
  ⟨⟨none, " a/SKILL.MD | 2 ++\n a/scripts/run.py | 5 +++", "", []⟩, ⟨[]⟩, false, none⟩

/-- A clean context matching both the skill and the homework patterns. -/
def ctxSkillHw : SessionContext :=
  ⟨⟨none, " pkg/SKILL.md | 2 ++\n pkg/scripts/run.py | 5 +++\n homework/hw1.py | 1 +", "", []⟩,
    ⟨[]⟩, false, none⟩

/-- A clean context with one ticket and one of two files unrelated to
it (50% unrelated, above the 30% side-quest threshold). -/
def ctxSide : SessionContext :=
  ⟨⟨none, " database/sync.py | 3 ++\n tools/misc.py | 2 +", "", []⟩,
    ⟨[⟨"Refactor database pipeline"⟩]⟩, false, none⟩

/-- The empty well-shaped context. -/
def ctxEmpty : SessionContext :=
  ⟨⟨none, "", "", []⟩, ⟨[]⟩, false, none⟩

/-- A context with `force_publish` set but no target repo, whose diff
touches three files. -/
def ctxForcedNoTarget : SessionContext :=
  ⟨⟨none, " a.md | 1 +\n b.md | 1 +\n c.md | 1 +", "", []⟩, ⟨[]⟩, true, none⟩

/-- `ctxForcedNoTarget` with the force flag cleared. -/
def ctxNoForce : SessionContext :=
  ⟨⟨none, " a.md | 1 +\n b.md | 1 +\n c.md | 1 +", "", []⟩, ⟨[]⟩, false, none⟩

/-- A raw context whose `git` field holds a string instead of a
dictionary: `"error" in git_data` succeeds (substring test) but the
subsequent `git_data.get("diff_stat", "")` raises AttributeError. -/
def pyCtxBad : PyVal := .pdict [("git", .pstr "boom")]

/-- The empty raw context (every field missing, all defaults apply). -/
def pyCtxOk : PyVal := .pdict []

/-! ### Helper lemmas -/

/-- A nonempty filter witnesses a member satisfying the predicate, and
conversely. -/
theorem filter_isEmpty_false_of_mem {α : Type} {p : α → Bool} {l : List α} {a : α}
    (ha : a ∈ l) (hpa : p a = true) : (l.filter p).isEmpty = false := by
  have hmem : a ∈ l.filter p := List.mem_filter.mpr ⟨ha, hpa⟩
  cases hfe : l.filter p with
  | nil => rw [hfe] at hmem; exact absurd hmem (List.not_mem_nil a)
  | cons b t => rfl

/-- Two keyword lists with the same members give the same `any`. -/
theorem any_congr_of_mem_iff {kws1 kws2 : List String}
    (h : ∀ k, k ∈ kws1 ↔ k ∈ kws2) (p : String → Bool) :
    kws1.any p = kws2.any p := by
  cases h1 : kws1.any p <;> cases h2 : kws2.any p <;> try rfl
  · rw [List.any_eq_true] at h2
    obtain ⟨k, hk, hpk⟩ := h2
    rw [List.any_eq_false] at h1
    exact absurd hpk (h1 k ((h k).mpr hk))
  · rw [List.any_eq_true] at h1
    obtain ⟨k, hk, hpk⟩ := h1
    rw [List.any_eq_false] at h2
    exact absurd hpk (h2 k ((h k).mp hk))

/-- Two keyword lists with the same members are both empty or both
nonempty. -/
theorem isEmpty_congr_of_mem_iff {kws1 kws2 : List String}
    (h : ∀ k, k ∈ kws1 ↔ k ∈ kws2) : kws1.isEmpty = kws2.isEmpty := by
  cases kws1 with
  | nil =>
    cases kws2 with
    | nil => rfl
    | cons b t => exact absurd ((h b).mpr (List.mem_cons_self b t)) (List.not_mem_nil b)
  | cons a s =>
    cases kws2 with
    | nil => exact absurd ((h a).mp (List.mem_cons_self a s)) (List.not_mem_nil a)
    | cons b t => rfl

/-- `detect_side_quest` depends on the keyword list only through
membership. -/
theorem detect_side_quest_congr (files : List String) {kws1 kws2 : List String}
    (h : ∀ k, k ∈ kws1 ↔ k ∈ kws2) :
    detect_side_quest files kws1 = detect_side_quest files kws2 := by
  have hfilt : files.filter (isUnrelated kws1) = files.filter (isUnrelated kws2) := by
    apply List.filter_congr
    intro f _
    unfold isUnrelated
    rw [any_congr_of_mem_iff h]
  unfold detect_side_quest
  rw [isEmpty_congr_of_mem_iff h, hfilt]

/-! ### Claim theorems -/

/-- C2: whenever the git data carries an error marker, `analyze_session`
returns the no-publish decision whose reason reports the git error, with
no classification rule applied — the result is this fixed record no
matter what every other field of the context holds. -/
theorem claim2_git_error (ctx : SessionContext) (e : String) (h : ctx.git.error = some e) :
    analyze_session ctx = ⟨false, none, none, "Git error: " ++ e, 1⟩ := by
  unfold analyze_session analyze_session_kw
  rw [h]

/-- Witness for C2 at a concrete erroring context. -/
theorem claim2_witness :
    analyze_session ctxErr = ⟨false, none, none, "Git error: not a git repository", 1⟩ :=
  claim2_git_error ctxErr "not a git repository" rfl

/-- C1 counterexample: a context with `force_publish = true` and a
recognized `target_repo`, but whose git data carries an error marker,
is rejected — the claim promises `should_publish = true` regardless of
the git data, yet the source checks the error marker before rule 0. -/
theorem claim1_counterexample :
    ctxErrForced.force_publish = true ∧
    ctxErrForced.target_repo = some "personal-ai-os" ∧
    "personal-ai-os" ∈ recognizedRepos ∧
    (analyze_session ctxErrForced).should_publish = false := by
  refine ⟨rfl, rfl, by decide, ?_⟩
  rw [claim2_git_error ctxErrForced "not a git repository" rfl]

/-- C1 amended: when additionally the git data carries no error marker,
a forced publish to a recognized repo returns the manual decision with
that repo and confidence 1. -/
theorem claim1_amended (ctx : SessionContext)
    (herr : ctx.git.error = none)
    (hfp : ctx.force_publish = true)
    (r : String) (hr : ctx.target_repo = some r)
    (hrec : r ∈ recognizedRepos) :
    analyze_session ctx =
      ⟨true, some ContentType.manual, some (TargetRepo.ofValue r),
        "Manually flagged for publish", 1⟩ := by
  unfold analyze_session analyze_session_kw
  rw [herr]
  simp only [hfp, hr]
  simp only [recognizedRepos, List.mem_cons, List.not_mem_nil, or_false] at hrec
  rcases hrec with h | h | h <;> subst h <;> rfl

/-- Witness for the amended C1 at a concrete forced context. -/
theorem claim1_witness :
    analyze_session ctxForced =
      ⟨true, some ContentType.manual, some TargetRepo.de_zoomcamp,
        "Manually flagged for publish", 1⟩ :=
  claim1_amended ctxForced rfl rfl "de-zoomcamp-2026" rfl (by decide)

/-- The skill rule fires exactly when both file patterns are present. -/
theorem detect_skill_fst_true (files : List String)
    (hsk : ∃ f ∈ files, isSkillFile f = true)
    (hsc : ∃ g ∈ files, isScriptFile g = true) :
    (detect_skill_creation files).1 = true := by
  obtain ⟨f, hf, hpf⟩ := hsk
  obtain ⟨g, hg, hpg⟩ := hsc
  simp only [detect_skill_creation]
  rw [filter_isEmpty_false_of_mem hf hpf, filter_isEmpty_false_of_mem hg hpg]
  rfl

/-- C3 counterexample: the skill rule as the claim words it — any file
matching "*skill*.md" case-insensitively together with any file under
a "scripts/" directory ending in ".py" — does not fire on a clean,
unforced context whose skill file carries an upper-case ".MD" suffix:
the source's `f.endswith(".md")` check is case-sensitive, the later
rules also miss, and the decision is no-publish rather than skill. -/
theorem claim3_counterexample :
    ctxSkillCase.git.error = none ∧
    (ctxSkillCase.force_publish && optStrTruthy ctxSkillCase.target_repo) = false ∧
    (∃ f ∈ modifiedFilesOf ctxSkillCase, isSkillFileBroad f = true) ∧
    (∃ g ∈ modifiedFilesOf ctxSkillCase, isScriptFileBroad g = true) ∧
    (analyze_session ctxSkillCase).should_publish = false ∧
    (analyze_session ctxSkillCase).content_type ≠ some ContentType.skill := by
  decide

/-- C3 amended: on a clean context with no forced override, a
modified-file set containing both a skill-markdown file and a
scripts-directory Python file — under the source's predicates: "skill"
occurs case-insensitively in the path and the path ends
(case-sensitively) in ".md"; "/scripts/" occurs case-insensitively in
the path and the path ends in ".py" — yields a publish decision with
content type skill, target repo personal-ai-os and confidence 0.9. -/
theorem claim3_skill_rule (ctx : SessionContext)
    (herr : ctx.git.error = none)
    (hforce : (ctx.force_publish && optStrTruthy ctx.target_repo) = false)
    (hsk : ∃ f ∈ modifiedFilesOf ctx, isSkillFile f = true)
    (hsc : ∃ g ∈ modifiedFilesOf ctx, isScriptFile g = true) :
    (analyze_session ctx).should_publish = true ∧
    (analyze_session ctx).content_type = some ContentType.skill ∧
    (analyze_session ctx).target_repo = some TargetRepo.personal_ai_os ∧
    (analyze_session ctx).confidence = 9/10 := by
  have hsk' : ∃ f ∈ extract_modified_files ctx.git.diff_stat, isSkillFile f = true := hsk
  have hsc' : ∃ g ∈ extract_modified_files ctx.git.diff_stat, isScriptFile g = true := hsc
  have hskill := detect_skill_fst_true _ hsk' hsc'
  unfold analyze_session analyze_session_kw
  rw [herr]
  simp [hforce, hskill]

/-- Witness for the amended C3 at a concrete skill-creating context. -/
theorem claim3_witness :
    (analyze_session ctxSkill).should_publish = true ∧
    (analyze_session ctxSkill).content_type = some ContentType.skill ∧
    (analyze_session ctxSkill).target_repo = some TargetRepo.personal_ai_os ∧
    (analyze_session ctxSkill).confidence = 9/10 :=
  claim3_skill_rule ctxSkill rfl rfl (by decide) (by decide)

/-- C5: on a clean context with no forced override that matches both
the skill-creation pattern and the homework pattern, the decision is
skill (rule order puts skill first), never homework. -/
theorem claim5_skill_precedes_homework (ctx : SessionContext)
    (herr : ctx.git.error = none)
    (hforce : (ctx.force_publish && optStrTruthy ctx.target_repo) = false)
    (hsk : ∃ f ∈ modifiedFilesOf ctx, isSkillFile f = true)
    (hsc : ∃ g ∈ modifiedFilesOf ctx, isScriptFile g = true)
    (hhw : (detect_homework (modifiedFilesOf ctx) ctx.git.recent_commits).1 = true) :
    (analyze_session ctx).content_type = some ContentType.skill ∧
    (analyze_session ctx).target_repo = some TargetRepo.personal_ai_os ∧
    (analyze_session ctx).content_type ≠ some ContentType.homework := by
  have hsk' : ∃ f ∈ extract_modified_files ctx.git.diff_stat, isSkillFile f = true := hsk
  have hsc' : ∃ g ∈ extract_modified_files ctx.git.diff_stat, isScriptFile g = true := hsc
  have hskill := detect_skill_fst_true _ hsk' hsc'
  unfold analyze_session analyze_session_kw
  rw [herr]
  simp [hforce, hskill]

/-- Witness for C5 at a concrete context matching both patterns. -/
theorem claim5_witness :
    (analyze_session ctxSkillHw).content_type = some ContentType.skill ∧
    (analyze_session ctxSkillHw).target_repo = some TargetRepo.personal_ai_os ∧
    (analyze_session ctxSkillHw).content_type ≠ some ContentType.homework :=
  claim5_skill_precedes_homework ctxSkillHw rfl rfl (by decide) (by decide) (by decide)

/-- Every decision either publishes or carries no content type and no
target repo. -/
theorem analyze_session_shape (ctx : SessionContext) :
    (analyze_session ctx).should_publish = true ∨
    ((analyze_session ctx).content_type = none ∧ (analyze_session ctx).target_repo = none) := by
  simp only [analyze_session, analyze_session_kw]
  cases ctx.git.error with
  | some e => exact Or.inr ⟨rfl, rfl⟩
  | none =>
    dsimp only
    split
    · exact Or.inl rfl
    · split
      · exact Or.inl rfl
      · split
        · exact Or.inl rfl
        · split
          · exact Or.inl rfl
          · split
            · exact Or.inl rfl
            · exact Or.inr ⟨rfl, rfl⟩

/-- C6: for every context, a non-publishing decision carries neither a
content type nor a target repo. -/
theorem claim6_no_publish_invariant (ctx : SessionContext)
    (h : (analyze_session ctx).should_publish = false) :
    (analyze_session ctx).content_type = none ∧ (analyze_session ctx).target_repo = none := by
  rcases analyze_session_shape ctx with h1 | h2
  · rw [h] at h1; exact absurd h1 (by simp)
  · exact h2

/-- Witness for C6 at the empty context. -/
theorem claim6_witness :
    (analyze_session ctxEmpty).should_publish = false ∧
    ((analyze_session ctxEmpty).content_type = none ∧
      (analyze_session ctxEmpty).target_repo = none) :=
  ⟨rfl, claim6_no_publish_invariant ctxEmpty rfl⟩

/-- C10: with `force_publish` set but `target_repo` absent or empty,
the forced-override rule is skipped entirely — the decision is the one
the remaining rules produce, exactly as if `force_publish` were false. -/
theorem claim10_override_needs_target (ctx : SessionContext)
    (hfp : ctx.force_publish = true)
    (ht : ctx.target_repo = none ∨ ctx.target_repo = some "") :
    analyze_session ctx = analyze_session ⟨ctx.git, ctx.linear, false, ctx.target_repo⟩ := by
  have htr : optStrTruthy ctx.target_repo = false := by
    rcases ht with h | h <;> rw [h] <;> rfl
  unfold analyze_session analyze_session_kw
  simp only [htr, Bool.and_false]

/-- Witness for C10 at a concrete context publishing through the volume
rule instead of the override. -/
theorem claim10_witness :
    ctxForcedNoTarget.force_publish = true ∧
    analyze_session ctxForcedNoTarget = analyze_session ctxNoForce :=
  ⟨rfl, claim10_override_needs_target ctxForcedNoTarget rfl (Or.inl rfl)⟩

/-- At exactly 30% unrelated files the side-quest rule does not fire
(the source compares with strict greater-than). -/
theorem side_quest_fst_false_of_eq (files kws : List String) (hkw : kws ≠ [])
    (heq : 10 * (files.filter (isUnrelated kws)).length = 3 * files.length) :
    (detect_side_quest files kws).1 = false := by
  have hkwE : kws.isEmpty = false := by
    cases kws with
    | nil => exact absurd rfl hkw
    | cons a t => rfl
  have hcond : ¬(0 < (files.filter (isUnrelated kws)).length ∧
      (3 : ℚ) / 10 < ((files.filter (isUnrelated kws)).length : ℚ) / (files.length : ℚ)) := by
    rintro ⟨hu, hlt⟩
    have hle : (files.filter (isUnrelated kws)).length ≤ files.length :=
      List.length_filter_le _ _
    have ht : 0 < files.length := lt_of_lt_of_le hu hle
    have hq : ((files.filter (isUnrelated kws)).length : ℚ) / (files.length : ℚ) = 3 / 10 := by
      rw [div_eq_div_iff (Nat.cast_ne_zero.mpr ht.ne') (by norm_num)]
      exact_mod_cast (by omega :
        (files.filter (isUnrelated kws)).length * 10 = 3 * files.length)
    rw [hq] at hlt
    exact lt_irrefl _ hlt
  simp only [detect_side_quest, hkwE, Bool.false_eq_true, if_false]
  rw [if_neg hcond]

/-- Above 30% unrelated files the side-quest rule fires. -/
theorem side_quest_fst_true_of_gt (files kws : List String) (hkw : kws ≠ [])
    (hgt : 3 * files.length < 10 * (files.filter (isUnrelated kws)).length) :
    (detect_side_quest files kws).1 = true := by
  have hkwE : kws.isEmpty = false := by
    cases kws with
    | nil => exact absurd rfl hkw
    | cons a t => rfl
  have hu : 0 < (files.filter (isUnrelated kws)).length := by omega
  have ht : 0 < files.length :=
    lt_of_lt_of_le hu (List.length_filter_le _ _)
  have hcond : 0 < (files.filter (isUnrelated kws)).length ∧
      (3 : ℚ) / 10 < ((files.filter (isUnrelated kws)).length : ℚ) / (files.length : ℚ) := by
    refine ⟨hu, ?_⟩
    rw [div_lt_div_iff₀ (by norm_num) (by exact_mod_cast ht)]
    exact_mod_cast (by omega :
      3 * files.length < (files.filter (isUnrelated kws)).length * 10)
  simp only [detect_side_quest, hkwE, Bool.false_eq_true, if_false]
  rw [if_pos hcond]

/-- C4: on a context that reaches the side-quest rule (no git error, no
forced override, no skill or homework match, nonempty keyword set), a
context whose unrelated files are exactly 30% of the modified files does
not produce a side-quest decision, while any proportion strictly above
30% produces the side-quest decision targeting learning-logs with
confidence 0.7. -/
theorem claim4_side_quest_threshold (ctx : SessionContext)
    (herr : ctx.git.error = none)
    (hforce : (ctx.force_publish && optStrTruthy ctx.target_repo) = false)
    (hskill : (detect_skill_creation (modifiedFilesOf ctx)).1 = false)
    (hhw : (detect_homework (modifiedFilesOf ctx) ctx.git.recent_commits).1 = false)
    (hkw : keywordsOf ctx ≠ []) :
    (10 * (unrelatedOf ctx).length = 3 * (modifiedFilesOf ctx).length →
      (analyze_session ctx).content_type ≠ some ContentType.side_quest) ∧
    (3 * (modifiedFilesOf ctx).length < 10 * (unrelatedOf ctx).length →
      (analyze_session ctx).should_publish = true ∧
      (analyze_session ctx).content_type = some ContentType.side_quest ∧
      (analyze_session ctx).target_repo = some TargetRepo.learning_logs ∧
      (analyze_session ctx).confidence = 7/10) := by
  have hskill' : (detect_skill_creation (extract_modified_files ctx.git.diff_stat)).1 = false :=
    hskill
  have hhw' : (detect_homework (extract_modified_files ctx.git.diff_stat)
      ctx.git.recent_commits).1 = false := hhw
  have hkw' : extract_ticket_keywords ctx.linear.tickets ≠ [] := hkw
  constructor
  · intro heq
    have hsq : (detect_side_quest (extract_modified_files ctx.git.diff_stat)
        (extract_ticket_keywords ctx.linear.tickets)).1 = false :=
      side_quest_fst_false_of_eq _ _ hkw' heq
    simp only [analyze_session, analyze_session_kw]
    rw [herr]
    dsimp only
    simp only [hforce, Bool.false_eq_true, if_false, hskill', hhw', hsq]
    split
    · simp
    · simp
  · intro hgt
    have hsq : (detect_side_quest (extract_modified_files ctx.git.diff_stat)
        (extract_ticket_keywords ctx.linear.tickets)).1 = true :=
      side_quest_fst_true_of_gt _ _ hkw' hgt
    simp only [analyze_session, analyze_session_kw]
    rw [herr]
    dsimp only
    simp [hforce, hskill', hhw', hsq]

/-- Witness for C4 at a concrete context with 50% unrelated files. -/
theorem claim4_witness :
    (analyze_session ctxSide).should_publish = true ∧
    (analyze_session ctxSide).content_type = some ContentType.side_quest ∧
    (analyze_session ctxSide).target_repo = some TargetRepo.learning_logs ∧
    (analyze_session ctxSide).confidence = 7/10 :=
  (claim4_side_quest_threshold ctxSide rfl rfl (by decide) (by decide)
    (by decide)).2 (by decide)

/-- The dedup loop returns a sublist of its input. -/
theorem dedup_ci_sublist (seen l : List String) : List.Sublist (dedup_ci seen l) l := by
  induction l generalizing seen with
  | nil => simp [dedup_ci]
  | cons a rest ih =>
    rw [dedup_ci]
    by_cases h : toLowerStr a ∈ seen
    · rw [if_pos h]
      exact (ih seen).cons a
    · rw [if_neg h]
      exact (ih (toLowerStr a :: seen)).cons₂ a

/-- No entry of the dedup loop's output has a lower-casing recorded in
`seen`. -/
theorem dedup_ci_lower_not_mem (seen l : List String) :
    ∀ b ∈ dedup_ci seen l, toLowerStr b ∉ seen := by
  induction l generalizing seen with
  | nil => intro b hb; simp [dedup_ci] at hb
  | cons a rest ih =>
    intro b hb
    rw [dedup_ci] at hb
    by_cases h : toLowerStr a ∈ seen
    · rw [if_pos h] at hb
      exact ih seen b hb
    · rw [if_neg h] at hb
      rcases List.mem_cons.mp hb with hba | hbr
      · rw [hba]; exact h
      · intro hmem
        exact ih (toLowerStr a :: seen) b hbr (List.mem_cons_of_mem _ hmem)

/-- The dedup loop's output has pairwise distinct lower-casings. -/
theorem dedup_ci_pairwise (seen l : List String) :
    (dedup_ci seen l).Pairwise (fun x y => toLowerStr x ≠ toLowerStr y) := by
  induction l generalizing seen with
  | nil => simp [dedup_ci]
  | cons a rest ih =>
    rw [dedup_ci]
    by_cases h : toLowerStr a ∈ seen
    · rw [if_pos h]
      exact ih seen
    · rw [if_neg h]
      refine List.Pairwise.cons ?_ (ih (toLowerStr a :: seen))
      intro b hb
      have := dedup_ci_lower_not_mem (toLowerStr a :: seen) rest b hb
      intro heq
      exact this (heq ▸ List.mem_cons_self _ _)

/-- C8: for every context (and any date), the key-accomplishment list
produced by the synthesizer has at most 5 entries, no two entries share
a lower-casing, and the list is a sublist of the raw extraction list —
entries keep their first-seen extraction order. -/
theorem claim8_accomplishment_cap (today : String) (ctx : SessionContext) :
    ((synthesize_enhanced today ctx).key_accomplishments).length ≤ 5 ∧
    ((synthesize_enhanced today ctx).key_accomplishments).Pairwise
      (fun x y => toLowerStr x ≠ toLowerStr y) ∧
    List.Sublist ((synthesize_enhanced today ctx).key_accomplishments) (raw_accomplishments ctx.git) := by
  have hk : (synthesize_enhanced today ctx).key_accomplishments
      = (dedup_ci [] (raw_accomplishments ctx.git)).take 5 := rfl
  rw [hk]
  refine ⟨?_, ?_, ?_⟩
  · exact List.length_take_le 5 _
  · exact (dedup_ci_pairwise [] _).sublist (List.take_sublist 5 _)
  · exact (List.take_sublist 5 _).trans (dedup_ci_sublist [] _)

/-- C9: `analyze_session` is a pure function of its context — two calls
on the same context agree definitionally — and its decision does not
depend on the order (or multiplicity) of the deduplicated ticket-keyword
list: any two keyword lists with the same members produce the same
decision.  This discharges the only nondeterminism in the source, the
unspecified iteration order of `list(set(keywords))`. -/
theorem claim9_keyword_order_independent (ctx : SessionContext) (kws1 kws2 : List String)
    (h : ∀ k, k ∈ kws1 ↔ k ∈ kws2) :
    analyze_session_kw ctx kws1 = analyze_session_kw ctx kws2 ∧
    analyze_session ctx = analyze_session_kw ctx (extract_ticket_keywords ctx.linear.tickets) := by
  constructor
  · simp only [analyze_session_kw]
    rw [detect_side_quest_congr (extract_modified_files ctx.git.diff_stat) h]
  · rfl

/-- Witness for C9 at a concrete context and two permuted keyword
lists. -/
theorem claim9_witness :
    analyze_session_kw ctxSide ["pipeline", "database"]
      = analyze_session_kw ctxSide ["database", "pipeline"] :=
  (claim9_keyword_order_independent ctxSide ["pipeline", "database"] ["database", "pipeline"]
    (by intro k; simp [List.mem_cons]; tauto)).1

/-- With a string commit log, the dynamic homework detector cannot
raise. -/
theorem detectHomeworkDyn_ok (files : List String) (c : String) :
    ∃ p, detectHomeworkDyn files (.pstr c) = .ok p := by
  unfold detectHomeworkDyn
  cases h : files.find? (fun f => HOMEWORK_INDICATORS.any (fun hw => strContains (toLowerStr f) hw)) with
  | some f => exact ⟨_, rfl⟩
  | none => exact ⟨_, rfl⟩

/-- With a string commit log, the dynamic rule cascade cannot raise. -/
theorem classifyDyn_ok (fp ft : PyVal) (files kws : List String) (c : String) :
    ∃ d, classifyDyn fp ft files kws (.pstr c) = .ok d := by
  obtain ⟨p, hp⟩ := detectHomeworkDyn_ok files c
  simp only [classifyDyn, hp]
  split
  · exact ⟨_, rfl⟩
  · split
    · exact ⟨_, rfl⟩
    · split
      · exact ⟨_, rfl⟩
      · split
        · exact ⟨_, rfl⟩
        · split
          · exact ⟨_, rfl⟩
          · exact ⟨_, rfl⟩

/-- Well-shaped tickets give the title loop no chance to raise. -/
theorem ticketTitles_ok (xs : List PyVal) (h : ∀ t ∈ xs, wellShapedTicket t = true) :
    ∃ ts, ticketTitles xs = .ok ts := by
  induction xs with
  | nil => exact ⟨[], rfl⟩
  | cons t rest ih =>
    have ht := h t (List.mem_cons_self t rest)
    obtain ⟨ts, hts⟩ := ih (fun x hx => h x (List.mem_cons_of_mem _ hx))
    cases t
    case pdict tk =>
      simp only [wellShapedTicket] at ht
      simp only [ticketTitles, pyGet]
      cases htl : dictLookup tk "title" with
      | none =>
        simp only [Option.getD_none, pyAsStrMethod, hts]
        exact ⟨_, rfl⟩
      | some tv =>
        rw [htl] at ht
        cases tv
        case pstr s =>
          simp only [Option.getD_some, pyAsStrMethod, hts]
          exact ⟨_, rfl⟩
        all_goals simp [strOrMissing] at ht
    all_goals simp [wellShapedTicket] at ht

/-- C7 counterexample: a context whose `git` field holds a string (an
unexpected shape) makes `analyze_session` raise AttributeError at
`git_data.get("diff_stat", "")` — the claim that it never raises on
malformed shapes is false. -/
theorem claim7_counterexample :
    analyzeSessionDyn pyCtxBad = .error PyErr.attributeError := rfl

/-- C7 amended: `analyze_session` returns a decision and never raises
for every well-shaped context — the `git` and `linear` fields, when
present, are dictionaries with string-or-absent `error`, `diff_stat`,
`recent_commits` and ticket titles, while the diff-stat content itself
is arbitrary and the override fields may have any shape; and, for the
extractor half of the claim, a diff-stat line the pattern does not
match is silently dropped from the extraction, never raised. -/
theorem claim7_amended :
    (∀ v, wellShapedContext v = true → ∃ d, analyzeSessionDyn v = .ok d) ∧
    (∀ ls1 l ls2, lineFile l = none →
      filesOfLines (ls1 ++ l :: ls2) = filesOfLines (ls1 ++ ls2)) := by
  constructor
  · intro v hv
    cases v
    case pdict kvs =>
      simp only [wellShapedContext, Bool.and_eq_true] at hv
      obtain ⟨hg, hl⟩ := hv
      have hgs : wellShapedGit ((dictLookup kvs "git").getD (.pdict [])) = true := by
        cases hgg : dictLookup kvs "git" with
        | none => rfl
        | some g => rw [hgg] at hg; simpa using hg
      have hls : wellShapedLinear ((dictLookup kvs "linear").getD (.pdict [])) = true := by
        cases hll : dictLookup kvs "linear" with
        | none => rfl
        | some l => rw [hll] at hl; simpa using hl
      obtain ⟨gkv, hgv⟩ : ∃ gkv, (dictLookup kvs "git").getD (.pdict []) = PyVal.pdict gkv := by
        cases hG : (dictLookup kvs "git").getD (.pdict [])
        case pdict gkv => exact ⟨gkv, rfl⟩
        all_goals rw [hG] at hgs; simp [wellShapedGit] at hgs
      obtain ⟨lkv, hlv⟩ : ∃ lkv, (dictLookup kvs "linear").getD (.pdict []) = PyVal.pdict lkv := by
        cases hL : (dictLookup kvs "linear").getD (.pdict [])
        case pdict lkv => exact ⟨lkv, rfl⟩
        all_goals rw [hL] at hls; simp [wellShapedLinear] at hls
      rw [hgv] at hgs
      rw [hlv] at hls
      simp only [wellShapedGit, Bool.and_eq_true] at hgs
      obtain ⟨⟨hge, hgd⟩, hgc⟩ := hgs
      simp only [wellShapedLinear] at hls
      cases herr : dictLookup gkv "error" with
      | some ev =>
        refine ⟨⟨false, none, none, "Git error: " ++ pyStr ev, 1⟩, ?_⟩
        simp only [analyzeSessionDyn, pyGet, hgv, hlv, pyContainsKey, pySubscript, herr]
        rfl
      | none =>
        obtain ⟨ds, hds⟩ : ∃ ds, (dictLookup gkv "diff_stat").getD (.pstr "") = PyVal.pstr ds := by
          cases hD : dictLookup gkv "diff_stat" with
          | none => exact ⟨"", rfl⟩
          | some x =>
            rw [hD] at hgd
            cases x
            case pstr s => exact ⟨s, rfl⟩
            all_goals simp [strOrMissing] at hgd
        obtain ⟨cm, hcm⟩ : ∃ cm, (dictLookup gkv "recent_commits").getD (.pstr "") = PyVal.pstr cm := by
          cases hC : dictLookup gkv "recent_commits" with
          | none => exact ⟨"", rfl⟩
          | some x =>
            rw [hC] at hgc
            cases x
            case pstr s => exact ⟨s, rfl⟩
            all_goals simp [strOrMissing] at hgc
        obtain ⟨txs, htx, hta⟩ : ∃ txs,
            (dictLookup lkv "tickets").getD (.plist []) = PyVal.plist txs ∧
            txs.all wellShapedTicket = true := by
          cases hT : dictLookup lkv "tickets" with
          | none => exact ⟨[], rfl, rfl⟩
          | some x =>
            rw [hT] at hls
            cases x
            case plist xs => exact ⟨xs, rfl, by simpa using hls⟩
            all_goals simp at hls
        obtain ⟨ts, hts⟩ := ticketTitles_ok txs (by
          intro t htmem
          exact List.all_eq_true.mp hta t htmem)
        obtain ⟨d, hd⟩ := classifyDyn_ok ((dictLookup kvs "force_publish").getD (.pbool false))
          ((dictLookup kvs "target_repo").getD .pnone) (extract_modified_files ds)
          (keywordsOfTitles ts) cm
        refine ⟨d, ?_⟩
        simp only [analyzeSessionDyn, pyGet, hgv, hlv, pyContainsKey, herr,
          Option.isSome_none, Bool.false_eq_true, if_false, hds, hcm, htx,
          modifiedFilesDyn, pyAsStrMethod, ticketKeywordsDyn, hts]
        exact hd
    all_goals simp [wellShapedContext] at hv
  · intro ls1 l ls2 h
    simp [filesOfLines, List.filterMap_append, List.filterMap_cons, h]

/-- Witness for the amended C7: the empty context is well shaped and
classified without an exception, and a concrete garbage diff line is
dropped. -/
theorem claim7_witness :
    (∃ d, analyzeSessionDyn pyCtxOk = .ok d) ∧
    filesOfLines (["a.py | 2"] ++ "garbage" :: ["b.py | 3"])
      = filesOfLines (["a.py | 2"] ++ ["b.py | 3"]) :=
  ⟨claim7_amended.1 pyCtxOk (by decide),
   claim7_amended.2 ["a.py | 2"] "garbage" ["b.py | 3"] (by decide)⟩
